import Mathlib

/-!
Verification of the deterministic debt-payoff engine in
`src/nodes/executors/finance_debt_payoff.py`.

The engine's arithmetic is modelled over `ℚ` with Python's `round(x, n)`
(round half to even at `n` decimal places) embedded exactly, so that every
monetary quantity is an exact multiple of `1/100` wherever the source rounds
to two decimal places.  The LLM-driven text extraction and the datetime
stamp are outside the model; everything downstream of the parsed parameter
mapping is embedded function by function.
-/

set_option maxRecDepth 4000

namespace DebtPayoff

/-- Round half to even to the nearest integer, as Python's builtin `round`
rounds a value that is exactly representable. -/
def rhe (x : ℚ) : ℤ :=
  let f := ⌊x⌋
  let r := x - (f : ℚ)
  if r < 1/2 then f
  else if 1/2 < r then f + 1
  else if f % 2 = 0 then f else f + 1

/-- Python's `round(x, n)`: round to `n` decimal places, ties to even. -/
def pyround (x : ℚ) (n : ℕ) : ℚ := (rhe (x * (10 : ℚ) ^ n) : ℚ) / (10 : ℚ) ^ n

/-- `round(x, 2)`, the rounding applied to every monetary value. -/
def round2 (x : ℚ) : ℚ := pyround x 2

/-- A value that is a whole number of cents, i.e. in the image of `round2`. -/
def IsCents (x : ℚ) : Prop := ∃ n : ℤ, x = (n : ℚ) / 100

/-- One entry of the raw `one_time_payments` list handed to the engine. -/
structure RawOneTime where
  month : ℤ
  amount : ℚ
  description : Option String := none
deriving DecidableEq

/-- The parameter dictionary `_calculate_debt_payoff_plan` reads
(all required keys present, defaults already applied). -/
structure Params where
  salary : ℚ
  fixed_expenses : ℚ
  debt_amount : ℚ
  interest_rate_percent : ℚ
  months : ℕ
  savings_rate_percent : ℚ
  one_time_payments : List RawOneTime
deriving DecidableEq

/-- `schemas.finance_debt_plan.OneTimePayment`. -/
structure OneTimePayment where
  month : ℤ
  amount : ℚ
  description : String
deriving DecidableEq

/-- `schemas.finance_debt_plan.MonthlyPaymentRow`. -/
structure MonthlyPaymentRow where
  month : ℕ
  salary : ℚ
  fixed_expenses : ℚ
  savings_amount : ℚ
  debt_payment : ℚ
  one_time_payment : ℚ
  total_payment : ℚ
  interest_charged : ℚ
  remaining_balance : ℚ
deriving DecidableEq

/-- `schemas.finance_debt_plan.FinanceDebtPlan` (the `created_date` stamp,
which reads the wall clock, is the one field left out of the model). -/
structure FinanceDebtPlan where
  plan_name : String
  salary : ℚ
  fixed_expenses : ℚ
  initial_debt : ℚ
  monthly_interest_rate : ℚ
  months : ℕ
  savings_rate : ℚ
  one_time_payments : List OneTimePayment
  monthly_rows : List MonthlyPaymentRow
  final_balance : ℚ
  total_saved : ℚ
  total_interest_paid : ℚ
  total_regular_payments : ℚ
  total_one_time_payments : ℚ
  is_debt_cleared : Bool
  months_to_payoff : Option ℕ
  recommended_payment : Option ℚ
  payoff_strategy : String
deriving DecidableEq

/-- The `one_time_by_month` dictionary: built by `one_time_by_month[m] = amt`
in list order, so a later entry for the same month overwrites an earlier one;
lookup defaults to `0.0`.  Amounts are rounded on entry (`round(float(...), 2)`). -/
def one_time_by_month (otps : List RawOneTime) (m : ℤ) : ℚ :=
  otps.foldl (fun acc o => if o.month = m then round2 o.amount else acc) 0

/-- The `OneTimePayment(month=m, amount=amt, description=desc)` objects kept in
`one_time_payments`, in list order, every entry retained. -/
def parseOneTime (o : RawOneTime) : OneTimePayment :=
  { month := o.month
    amount := round2 o.amount
    description := o.description.getD "One-time payment" }

/-- The per-month loop constants computed before the simulation loop. -/
structure LoopEnv where
  salary : ℚ
  fixed_expenses : ℚ
  savings_amount : ℚ
  regular_payment : ℚ
  monthly_rate : ℚ
deriving DecidableEq

/-- Body of the simulation loop for one month: interest first, then the
tentative payment, the tentative new balance, and the early-payoff
adjustment when the tentative balance goes negative (lines 224-275). -/
def monthStep (env : LoopEnv) (month : ℕ) (one_time balance : ℚ) : MonthlyPaymentRow :=
  let interest := round2 (balance * env.monthly_rate)
  let tentative_total := round2 (env.regular_payment + one_time)
  let new_balance := round2 (balance + interest - tentative_total)
  if new_balance < 0 then
    let needed := round2 (balance + interest)
    let pay :=
      if 0 < one_time then
        let reduction := min one_time |new_balance|
        let tentative_one_time := round2 (one_time - reduction)
        let remaining_over := |new_balance| - reduction
        let tentative_regular :=
          if 0 < remaining_over then round2 (env.regular_payment - remaining_over)
          else env.regular_payment
        (tentative_regular, tentative_one_time)
      else
        (round2 needed, one_time)
    { month := month
      salary := env.salary
      fixed_expenses := env.fixed_expenses
      savings_amount := env.savings_amount
      debt_payment := pay.1
      one_time_payment := pay.2
      total_payment := round2 (pay.1 + pay.2)
      interest_charged := interest
      remaining_balance := 0 }
  else
    { month := month
      salary := env.salary
      fixed_expenses := env.fixed_expenses
      savings_amount := env.savings_amount
      debt_payment := env.regular_payment
      one_time_payment := one_time
      total_payment := tentative_total
      interest_charged := interest
      remaining_balance := new_balance }

/-- The running totals, each updated with `round(total + delta, 2)`. -/
structure Totals where
  interest : ℚ
  saved : ℚ
  regular : ℚ
  one_time : ℚ
deriving DecidableEq

/-- Totals update performed after each simulated month (lines 258-262). -/
def addRow (env : LoopEnv) (t : Totals) (row : MonthlyPaymentRow) : Totals :=
  { interest := round2 (t.interest + row.interest_charged)
    saved := round2 (t.saved + env.savings_amount)
    regular := round2 (t.regular + row.debt_payment)
    one_time := round2 (t.one_time + row.one_time_payment) }

/-- What the simulation loop produces: the rows, the totals, the final
balance (`0.0` on the early-payoff return path, line 293), whether the debt
cleared, and the month at which the loop stopped. -/
structure LoopResult where
  rows : List MonthlyPaymentRow
  totals : Totals
  finalBalance : ℚ
  cleared : Bool
  clearedMonth : Option ℕ
deriving DecidableEq

/-- The `for month in range(1, months + 1)` loop with its early `return`
when `balance <= 0` (lines 224-303): `month` is the next month number,
the second argument the number of iterations left. -/
def runLoop (env : LoopEnv) (otp : ℕ → ℚ) : ℕ → ℕ → ℚ → Totals → LoopResult
  | _, 0, balance, t => ⟨[], t, balance, false, none⟩
  | month, k + 1, balance, t =>
    let row := monthStep env month (otp month) balance
    let t' := addRow env t row
    if row.remaining_balance ≤ 0 then
      ⟨[row], t', 0, true, some month⟩
    else
      let r := runLoop env otp (month + 1) k row.remaining_balance t'
      ⟨row :: r.rows, r.totals, r.finalBalance, r.cleared, r.clearedMonth⟩

/-- `_calc_required_payment` (lines 334-341). -/
def calc_required_payment (debt rate : ℚ) (months : ℕ) (bonus : ℚ) : ℚ :=
  if rate = 0 then round2 (max 0 ((debt - bonus) / months))
  else
    let effective := max 0 (debt - bonus)
    round2 (rate * effective / (1 - (1 + rate) ^ (-(months : ℤ))))

/-- The quantities `_calculate_debt_payoff_plan` computes before its loop
(lines 186-197): the parsed parameters, the rounded rates, the fixed monthly
savings amount and the fixed regular payment. -/
def plan_env (p : Params) : LoopEnv :=
  { salary := round2 p.salary
    fixed_expenses := round2 p.fixed_expenses
    savings_amount := round2 (round2 p.salary * pyround (p.savings_rate_percent / 100) 4)
    regular_payment := round2 (round2 p.salary - round2 p.fixed_expenses -
      round2 (round2 p.salary * pyround (p.savings_rate_percent / 100) 4))
    monthly_rate := pyround (p.interest_rate_percent / 100) 6 }

/-- The whole simulation loop of `_calculate_debt_payoff_plan`: months `1`
to `months`, starting from the rounded initial debt with zeroed totals. -/
def plan_loop (p : Params) : LoopResult :=
  runLoop (plan_env p) (fun m => one_time_by_month p.one_time_payments (m : ℤ)) 1 p.months
    (round2 p.debt_amount) ⟨0, 0, 0, 0⟩

/-- `_calculate_debt_payoff_plan` (lines 176-331).  The two `return`
statements build identical records except for the fields written from the
loop outcome, so a single record is built here from `LoopResult`. -/
def calculate_debt_payoff_plan (p : Params) : FinanceDebtPlan :=
  { plan_name := toString p.months ++ "-Month Debt Payoff Plan"
    salary := (plan_env p).salary
    fixed_expenses := (plan_env p).fixed_expenses
    initial_debt := round2 p.debt_amount
    monthly_interest_rate := (plan_env p).monthly_rate
    months := p.months
    savings_rate := pyround (p.savings_rate_percent / 100) 4
    one_time_payments := p.one_time_payments.map parseOneTime
    monthly_rows := (plan_loop p).rows
    final_balance := (plan_loop p).finalBalance
    total_saved := (plan_loop p).totals.saved
    total_interest_paid := (plan_loop p).totals.interest
    total_regular_payments := (plan_loop p).totals.regular
    total_one_time_payments := (plan_loop p).totals.one_time
    is_debt_cleared := (plan_loop p).cleared
    months_to_payoff := (plan_loop p).clearedMonth
    recommended_payment :=
      if (plan_loop p).cleared then none
      else some (calc_required_payment (round2 p.debt_amount) ((plan_env p).monthly_rate)
        p.months (((p.one_time_payments.map parseOneTime).map OneTimePayment.amount).sum))
    payoff_strategy := "standard" }

/-- The message appended when a row's balance is negative beyond tolerance. -/
def negBalanceMsg (row : MonthlyPaymentRow) : String :=
  "M" ++ toString row.month ++ ": Negative balance " ++ toString row.remaining_balance

/-- The message appended when a covered payment still lets the balance grow. -/
def balanceIncreasedMsg (prev : ℚ) (row : MonthlyPaymentRow) : String :=
  "M" ++ toString row.month ++ ": Balance increased. Prev=" ++ toString prev ++
    ", New=" ++ toString row.remaining_balance

/-- The message appended when a row's balance disagrees with recomputation. -/
def calcMismatchMsg (expected : ℚ) (row : MonthlyPaymentRow) : String :=
  "M" ++ toString row.month ++ ": Calc mismatch. Expected=" ++ toString expected ++
    ", Got=" ++ toString row.remaining_balance

/-- The message appended for a one-time payment outside the plan horizon. -/
def bonusRangeMsg (m : ℤ) (months : ℕ) : String :=
  "Bonus month " ++ toString m ++ " outside 1-" ++ toString months

/-- The three per-row checks of `_validate_plan`, in source order. -/
def rowChecks (prev : ℚ) (row : MonthlyPaymentRow) : List String :=
  (if row.remaining_balance < -(1/100) then [negBalanceMsg row] else []) ++
  (if row.interest_charged ≤ row.total_payment ∧ prev + 1/100 < row.remaining_balance then
    [balanceIncreasedMsg prev row] else []) ++
  (let expected := round2 (prev + row.interest_charged - row.total_payment)
   if 2/100 < |row.remaining_balance - expected| then [calcMismatchMsg expected row] else [])

/-- The month-by-month sweep of `_validate_plan`, threading `prev_balance`. -/
def rowsChecks : ℚ → List MonthlyPaymentRow → List String
  | _, [] => []
  | prev, row :: rest => rowChecks prev row ++ rowsChecks row.remaining_balance rest

/-- `_validate_plan` (lines 344-391). -/
def validate_plan (plan : FinanceDebtPlan) : List String :=
  let savings := round2 (plan.salary * plan.savings_rate)
  let available := round2 (plan.salary - plan.fixed_expenses - savings)
  if available ≤ 0 then ["No cash for debt: expenses+savings >= salary"]
  else
    (plan.one_time_payments.flatMap fun o =>
      if o.month < 1 ∨ (plan.months : ℤ) < o.month then [bonusRangeMsg o.month plan.months]
      else []) ++
    rowsChecks (round2 plan.initial_debt) plan.monthly_rows

/-- The raw key/value mapping produced by the extraction oracle, restricted
to the keys `_extract_parameters` reads; a `none` field is an absent key. -/
structure RawMapping where
  salary : Option ℚ := none
  fixed_expenses : Option ℚ := none
  debt_amount : Option ℚ := none
  interest_rate_percent : Option ℚ := none
  months : Option ℤ := none
  savings_rate_percent : Option ℚ := none
  currency : Option String := none
  one_time_payments : Option (List RawOneTime) := none
deriving DecidableEq

/-- The three `params.setdefault(...)` calls (lines 160-162). -/
def applyDefaults (r : RawMapping) : RawMapping :=
  { r with
    savings_rate_percent := some (r.savings_rate_percent.getD 10)
    currency := some (r.currency.getD "EGP")
    one_time_payments := some (r.one_time_payments.getD []) }

/-- The deterministic tail of `_extract_parameters`: apply defaults, then
return the parameters only when every required key is present (lines 160-169). -/
def extract_parameters (r : RawMapping) : Option Params :=
  let rd := applyDefaults r
  match rd.salary, rd.fixed_expenses, rd.debt_amount, rd.interest_rate_percent, rd.months with
  | some s, some f, some d, some ir, some m =>
    some { salary := s
           fixed_expenses := f
           debt_amount := d
           interest_rate_percent := ir
           months := m.toNat
           savings_rate_percent := rd.savings_rate_percent.getD 10
           one_time_payments := rd.one_time_payments.getD [] }
  | _, _, _, _, _ => none

/-- The structured results `finance_debt_payoff_executor` can return. -/
inductive ExecOutcome where
  | extraction_failed (required : List String)
  | validation_failed (errors : List String) (plan : FinanceDebtPlan)
  | success (plan : FinanceDebtPlan)
deriving DecidableEq

/-- The static `required` list in the extraction-failure payload (line 53). -/
def required_keys_reported : List String :=
  ["salary", "fixed_expenses", "debt_amount", "interest_rate", "months"]

/-- `finance_debt_payoff_executor` (lines 32-111) from the extracted mapping
on: the structured outcome, paired with whether `store.put` was invoked
(`_store_plan` runs only on the success path, line 81). -/
def finance_debt_payoff_executor (raw : RawMapping) : ExecOutcome × Bool :=
  match extract_parameters raw with
  | none => (ExecOutcome.extraction_failed required_keys_reported, false)
  | some p =>
    let plan := calculate_debt_payoff_plan p
    let errors := validate_plan plan
    if errors ≠ [] then (ExecOutcome.validation_failed errors plan, false)
    else (ExecOutcome.success plan, true)

/-- Modelled from the claim's words, for comparison with the code: the
required keys actually missing from the mapping once defaults are applied. -/
def spec_missing_required_keys (r : RawMapping) : List String :=
  (if r.salary.isNone then ["salary"] else []) ++
  (if r.fixed_expenses.isNone then ["fixed_expenses"] else []) ++
  (if r.debt_amount.isNone then ["debt_amount"] else []) ++
  (if r.interest_rate_percent.isNone then ["interest_rate_percent"] else []) ++
  (if r.months.isNone then ["months"] else [])

/-! ### Concrete scenario inputs used for witnesses -/

/-- Scenario A of the spec: salary 12000, expenses 7500, debt 20000,
monthly rate 2.5 percent, 6 months, savings rate 10 percent, no bonuses. -/
def paramsA : Params :=
  { salary := 12000
    fixed_expenses := 7500
    debt_amount := 20000
    interest_rate_percent := 5/2
    months := 6
    savings_rate_percent := 10
    one_time_payments := [] }

/-- The first monthly row Scenario A produces. -/
def rowA1 : MonthlyPaymentRow :=
  { month := 1
    salary := 12000
    fixed_expenses := 7500
    savings_amount := 1200
    debt_payment := 3300
    one_time_payment := 0
    total_payment := 3300
    interest_charged := 500
    remaining_balance := 17200 }

/-- A raw mapping whose plan fails validation: expenses exceed salary. -/
def rawNoCash : RawMapping :=
  { salary := some 1000
    fixed_expenses := some 2000
    debt_amount := some 500
    interest_rate_percent := some 0
    months := some 3 }

/-- The parameters extracted from `rawNoCash` (defaults applied). -/
def paramsNoCash : Params :=
  { salary := 1000
    fixed_expenses := 2000
    debt_amount := 500
    interest_rate_percent := 0
    months := 3
    savings_rate_percent := 10
    one_time_payments := [] }

/-- A raw mapping supplying only the salary. -/
def rawOnlySalary : RawMapping := { salary := some 1000 }

/-- Loop constants of a month in which the regular payment far exceeds the
remaining balance, so the early-payoff clamp fires. -/
def envClamp : LoopEnv :=
  { salary := 1000
    fixed_expenses := 500
    savings_amount := 100
    regular_payment := 3300
    monthly_rate := 1/40 }

/-! ### Rounding lemmas -/

theorem rhe_intCast (n : ℤ) : rhe ((n : ℚ)) = n := by
  simp [rhe, Int.floor_intCast]

theorem pyround_two (x : ℚ) : pyround x 2 = (rhe (x * 100) : ℚ) / 100 := by
  norm_num [pyround]

theorem round2_eq (x : ℚ) : round2 x = (rhe (x * 100) : ℚ) / 100 := by
  rw [round2, pyround_two]

theorem isCents_round2 (x : ℚ) : IsCents (round2 x) :=
  ⟨rhe (x * 100), round2_eq x⟩

theorem IsCents.round2_self {x : ℚ} (h : IsCents x) : round2 x = x := by
  obtain ⟨n, rfl⟩ := h
  rw [round2_eq]
  have h1 : (n : ℚ) / 100 * 100 = (n : ℚ) := div_mul_cancel₀ _ (by norm_num)
  rw [h1, rhe_intCast]

theorem IsCents.add {x y : ℚ} (hx : IsCents x) (hy : IsCents y) : IsCents (x + y) := by
  obtain ⟨a, rfl⟩ := hx
  obtain ⟨b, rfl⟩ := hy
  exact ⟨a + b, by push_cast; ring⟩

theorem IsCents.sub {x y : ℚ} (hx : IsCents x) (hy : IsCents y) : IsCents (x - y) := by
  obtain ⟨a, rfl⟩ := hx
  obtain ⟨b, rfl⟩ := hy
  exact ⟨a - b, by push_cast; ring⟩

theorem IsCents.neg {x : ℚ} (hx : IsCents x) : IsCents (-x) := by
  obtain ⟨a, rfl⟩ := hx
  exact ⟨-a, by push_cast; ring⟩

theorem IsCents.abs {x : ℚ} (hx : IsCents x) : IsCents |x| := by
  rcases abs_cases x with ⟨h, -⟩ | ⟨h, -⟩
  · rwa [h]
  · rw [h]; exact hx.neg

theorem IsCents.min {x y : ℚ} (hx : IsCents x) (hy : IsCents y) : IsCents (min x y) := by
  rcases min_cases x y with ⟨h, -⟩ | ⟨h, -⟩ <;> rw [h] <;> assumption

theorem isCents_zero : IsCents 0 := ⟨0, by norm_num⟩

/-- Evaluation helper: `pyround` at a point where the scaled value is a whole
integer. -/
theorem pyround_eq_of_int (x : ℚ) (k : ℕ) (n : ℤ) (h : x * (10 : ℚ) ^ k = (n : ℚ)) :
    pyround x k = (n : ℚ) / (10 : ℚ) ^ k := by
  rw [pyround, h, rhe_intCast]

/-- Evaluation helper: `round2` at a point where the value in cents is whole. -/
theorem round2_eq_of_int (x : ℚ) (n : ℤ) (h : x * 100 = (n : ℚ)) :
    round2 x = (n : ℚ) / 100 := by
  rw [round2_eq, h, rhe_intCast]

/-! ### Case equations for `monthStep`

Each equation names the month's intermediate values (`i` the interest, `tt`
the tentative total payment, `nb` the tentative new balance) so that both
symbolic proofs and concrete evaluations can instantiate them. -/

/-- The month's interest, charged on the balance before any payment. -/
theorem monthStep_interest (env : LoopEnv) (month : ℕ) (ot b : ℚ) :
    (monthStep env month ot b).interest_charged = round2 (b * env.monthly_rate) := by
  simp only [monthStep]
  split <;> rfl

/-- Every row `monthStep` builds carries its own month number. -/
theorem monthStep_month (env : LoopEnv) (month : ℕ) (ot b : ℚ) :
    (monthStep env month ot b).month = month := by
  simp only [monthStep]
  split <;> rfl

/-- `monthStep` when the tentative balance does not go negative. -/
theorem monthStep_eq_of_nonneg (env : LoopEnv) (month : ℕ) (ot b i tt nb : ℚ)
    (hi : round2 (b * env.monthly_rate) = i)
    (htt : round2 (env.regular_payment + ot) = tt)
    (hnb : round2 (b + i - tt) = nb)
    (h : ¬ nb < 0) :
    monthStep env month ot b =
      ⟨month, env.salary, env.fixed_expenses, env.savings_amount,
        env.regular_payment, ot, tt, i, nb⟩ := by
  simp only [monthStep]
  rw [hi, htt, hnb, if_neg h]

/-- `monthStep` in the early-payoff branch with a positive one-time payment:
the one-time payment absorbs `min ot |nb|` of the overshoot, the regular
payment any positive remainder. -/
theorem monthStep_eq_of_neg_pos (env : LoopEnv) (month : ℕ) (ot b i tt nb : ℚ)
    (hi : round2 (b * env.monthly_rate) = i)
    (htt : round2 (env.regular_payment + ot) = tt)
    (hnb : round2 (b + i - tt) = nb)
    (h : nb < 0) (hpos : 0 < ot) :
    monthStep env month ot b =
      ⟨month, env.salary, env.fixed_expenses, env.savings_amount,
        (if 0 < |nb| - min ot |nb| then
          round2 (env.regular_payment - (|nb| - min ot |nb|))
        else env.regular_payment),
        round2 (ot - min ot |nb|),
        round2 ((if 0 < |nb| - min ot |nb| then
            round2 (env.regular_payment - (|nb| - min ot |nb|))
          else env.regular_payment) + round2 (ot - min ot |nb|)),
        i, 0⟩ := by
  simp only [monthStep]
  rw [hi, htt, hnb, if_pos h, if_pos hpos]

/-- `monthStep` in the early-payoff branch with no positive one-time payment:
the regular payment is replaced by `round(needed, 2)`. -/
theorem monthStep_eq_of_neg_zero (env : LoopEnv) (month : ℕ) (ot b i tt nb : ℚ)
    (hi : round2 (b * env.monthly_rate) = i)
    (htt : round2 (env.regular_payment + ot) = tt)
    (hnb : round2 (b + i - tt) = nb)
    (h : nb < 0) (hnp : ¬ 0 < ot) :
    monthStep env month ot b =
      ⟨month, env.salary, env.fixed_expenses, env.savings_amount,
        round2 (round2 (b + i)), ot,
        round2 (round2 (round2 (b + i)) + ot), i, 0⟩ := by
  simp only [monthStep]
  rw [hi, htt, hnb, if_pos h, if_neg hnp]

/-- Every row `monthStep` builds has a nonnegative remaining balance: the
early-payoff clamp replaces any negative tentative balance by exactly `0`. -/
theorem monthStep_remaining_nonneg (env : LoopEnv) (month : ℕ) (ot b : ℚ) :
    0 ≤ (monthStep env month ot b).remaining_balance := by
  by_cases h : round2 (b + round2 (b * env.monthly_rate) -
      round2 (env.regular_payment + ot)) < 0
  · by_cases hpos : 0 < ot
    · rw [monthStep_eq_of_neg_pos env month ot b _ _ _ rfl rfl rfl h hpos]
    · rw [monthStep_eq_of_neg_zero env month ot b _ _ _ rfl rfl rfl h hpos]
  · rw [monthStep_eq_of_nonneg env month ot b _ _ _ rfl rfl rfl h]
    exact not_lt.mp h

/-! ### Exact arithmetic of one simulated month

With all inputs whole cents, every `round2` the loop body applies is the
identity, so the reported row satisfies the exact balance identity. -/

theorem monthStep_exact (env : LoopEnv) (month : ℕ) (ot b : ℚ)
    (hreg : IsCents env.regular_payment) (hb : IsCents b)
    (hot : IsCents ot) (hot0 : 0 ≤ ot) :
    (monthStep env month ot b).remaining_balance =
        b + (monthStep env month ot b).interest_charged -
          (monthStep env month ot b).total_payment ∧
      (monthStep env month ot b).total_payment =
        (monthStep env month ot b).debt_payment +
          (monthStep env month ot b).one_time_payment ∧
      IsCents (monthStep env month ot b).debt_payment ∧
      IsCents (monthStep env month ot b).one_time_payment ∧
      IsCents (monthStep env month ot b).remaining_balance := by
  obtain ⟨i, hi⟩ : ∃ y, round2 (b * env.monthly_rate) = y := ⟨_, rfl⟩
  have hic : IsCents i := hi ▸ isCents_round2 _
  obtain ⟨tt, htt⟩ : ∃ y, round2 (env.regular_payment + ot) = y := ⟨_, rfl⟩
  have httc : IsCents tt := htt ▸ isCents_round2 _
  have htteq : tt = env.regular_payment + ot := htt ▸ (hreg.add hot).round2_self
  obtain ⟨nb, hnb⟩ : ∃ y, round2 (b + i - tt) = y := ⟨_, rfl⟩
  have hnbc : IsCents nb := hnb ▸ isCents_round2 _
  have hnbeq : nb = b + i - tt := hnb ▸ ((hb.add hic).sub httc).round2_self
  by_cases h : nb < 0
  · have habs : IsCents |nb| := hnbc.abs
    have habs_eq : |nb| = tt - (b + i) := by rw [abs_of_neg h, hnbeq]; ring
    by_cases hpos : 0 < ot
    · rw [monthStep_eq_of_neg_pos env month ot b i tt nb hi htt hnb h hpos]
      have hminc : IsCents (min ot |nb|) := hot.min habs
      have hminle : min ot |nb| ≤ |nb| := min_le_right _ _
      have hto : round2 (ot - min ot |nb|) = ot - min ot |nb| := (hot.sub hminc).round2_self
      by_cases hro : 0 < |nb| - min ot |nb|
      · rw [if_pos hro]
        have htr : round2 (env.regular_payment - (|nb| - min ot |nb|)) =
            env.regular_payment - (|nb| - min ot |nb|) :=
          (hreg.sub (habs.sub hminc)).round2_self
        refine ⟨?_, ((isCents_round2 _).add (isCents_round2 _)).round2_self,
          isCents_round2 _, isCents_round2 _, isCents_zero⟩
        show (0 : ℚ) = b + i -
          round2 (round2 (env.regular_payment - (|nb| - min ot |nb|)) +
            round2 (ot - min ot |nb|))
        rw [htr, hto, ((hreg.sub (habs.sub hminc)).add (hot.sub hminc)).round2_self,
          habs_eq, htteq]
        ring
      · rw [if_neg hro]
        have hmineq : min ot |nb| = |nb| := le_antisymm hminle (by linarith [not_lt.mp hro])
        refine ⟨?_, (hreg.add (isCents_round2 _)).round2_self,
          hreg, isCents_round2 _, isCents_zero⟩
        show (0 : ℚ) = b + i -
          round2 (env.regular_payment + round2 (ot - min ot |nb|))
        rw [hto, (hreg.add (hot.sub hminc)).round2_self, hmineq, habs_eq, htteq]
        ring
    · have hoteq : ot = 0 := le_antisymm (not_lt.mp hpos) hot0
      rw [monthStep_eq_of_neg_zero env month ot b i tt nb hi htt hnb h hpos]
      have hbi : round2 (b + i) = b + i := (hb.add hic).round2_self
      refine ⟨?_, ((isCents_round2 _).add hot).round2_self,
        isCents_round2 _, hot, isCents_zero⟩
      show (0 : ℚ) = b + i - round2 (round2 (round2 (b + i)) + ot)
      rw [hbi, hbi, hoteq, add_zero, hbi]
      ring
  · rw [monthStep_eq_of_nonneg env month ot b i tt nb hi htt hnb h]
    exact ⟨hnbeq, htteq, hreg, hot, hnbc⟩
/-! ### Structure of the simulation loop's result -/

/-- Every row the loop emits has a nonnegative remaining balance. -/
theorem runLoop_rows_nonneg (env : LoopEnv) (otp : ℕ → ℚ) :
    ∀ (k month : ℕ) (b : ℚ) (t : Totals) (rows : List MonthlyPaymentRow)
      (tot : Totals) (fb : ℚ) (cl : Bool) (cm : Option ℕ),
      runLoop env otp month k b t = ⟨rows, tot, fb, cl, cm⟩ →
      ∀ row ∈ rows, 0 ≤ row.remaining_balance := by
  intro k
  induction k with
  | zero =>
    intro month b t rows tot fb cl cm h
    rw [runLoop] at h
    obtain ⟨rfl, -, -, -, -⟩ := LoopResult.mk.injEq .. ▸ h
    intro row hrow
    exact absurd hrow (List.not_mem_nil row)
  | succ k ih =>
    intro month b t rows tot fb cl cm h
    simp only [runLoop] at h
    by_cases hstop : (monthStep env month (otp month) b).remaining_balance ≤ 0
    · rw [if_pos hstop] at h
      obtain ⟨rfl, -, -, -, -⟩ := LoopResult.mk.injEq .. ▸ h
      intro row hrow
      rw [List.mem_singleton] at hrow
      subst hrow
      exact monthStep_remaining_nonneg env month (otp month) b
    · rw [if_neg hstop] at h
      rcases hr : runLoop env otp (month + 1) k
          (monthStep env month (otp month) b).remaining_balance
          (addRow env t (monthStep env month (otp month) b)) with
        ⟨rows', tot', fb', cl', cm'⟩
      rw [hr] at h
      obtain ⟨rfl, -, -, -, -⟩ := LoopResult.mk.injEq .. ▸ h
      intro row hrow
      rcases List.mem_cons.mp hrow with rfl | hrow'
      · exact monthStep_remaining_nonneg env month (otp month) b
      · exact ih (month + 1) _ _ rows' tot' fb' cl' cm' hr row hrow'

/-- If the loop runs out of months without clearing, it has emitted one row
per month, left `clearedMonth` unset, and every row's balance is positive. -/
theorem runLoop_not_cleared_struct (env : LoopEnv) (otp : ℕ → ℚ) :
    ∀ (k month : ℕ) (b : ℚ) (t : Totals) (rows : List MonthlyPaymentRow)
      (tot : Totals) (fb : ℚ) (cm : Option ℕ),
      runLoop env otp month k b t = ⟨rows, tot, fb, false, cm⟩ →
      rows.length = k ∧ cm = none ∧ ∀ row ∈ rows, 0 < row.remaining_balance := by
  intro k
  induction k with
  | zero =>
    intro month b t rows tot fb cm h
    rw [runLoop] at h
    obtain ⟨rfl, -, -, -, rfl⟩ := LoopResult.mk.injEq .. ▸ h
    refine ⟨rfl, rfl, fun row hrow => absurd hrow (List.not_mem_nil row)⟩
  | succ k ih =>
    intro month b t rows tot fb cm h
    simp only [runLoop] at h
    by_cases hstop : (monthStep env month (otp month) b).remaining_balance ≤ 0
    · rw [if_pos hstop] at h
      obtain ⟨-, -, -, hcl, -⟩ := LoopResult.mk.injEq .. ▸ h
      exact absurd hcl (by simp)
    · rw [if_neg hstop] at h
      rcases hr : runLoop env otp (month + 1) k
          (monthStep env month (otp month) b).remaining_balance
          (addRow env t (monthStep env month (otp month) b)) with
        ⟨rows', tot', fb', cl', cm'⟩
      rw [hr] at h
      obtain ⟨rfl, -, -, hcl, rfl⟩ := LoopResult.mk.injEq .. ▸ h
      subst hcl
      obtain ⟨hlen, hcm, hpos⟩ := ih (month + 1) _ _ rows' tot' fb' cm' hr
      refine ⟨by simp [hlen], hcm, ?_⟩
      intro row hrow
      rcases List.mem_cons.mp hrow with rfl | hrow'
      · exact lt_of_not_le hstop
      · exact hpos row hrow'

/-- If the loop cleared the debt, it stopped at the month of its last row:
at least one and at most `k` rows exist, `clearedMonth` is the month of the
last row, every earlier row's balance is positive, and the last row's
balance is exactly `0`. -/
theorem runLoop_cleared_struct (env : LoopEnv) (otp : ℕ → ℚ) :
    ∀ (k month : ℕ) (b : ℚ) (t : Totals) (rows : List MonthlyPaymentRow)
      (tot : Totals) (fb : ℚ) (cm : Option ℕ),
      runLoop env otp month k b t = ⟨rows, tot, fb, true, cm⟩ →
      1 ≤ rows.length ∧ rows.length ≤ k ∧ fb = 0 ∧
        cm = some (month + (rows.length - 1)) ∧
        ∀ i (hi : i < rows.length),
          (i + 1 = rows.length → (rows.get ⟨i, hi⟩).remaining_balance = 0) ∧
          (i + 1 < rows.length → 0 < (rows.get ⟨i, hi⟩).remaining_balance) := by
  intro k
  induction k with
  | zero =>
    intro month b t rows tot fb cm h
    rw [runLoop] at h
    obtain ⟨-, -, -, hcl, -⟩ := LoopResult.mk.injEq .. ▸ h
    exact absurd hcl (by simp)
  | succ k ih =>
    intro month b t rows tot fb cm h
    simp only [runLoop] at h
    by_cases hstop : (monthStep env month (otp month) b).remaining_balance ≤ 0
    · rw [if_pos hstop] at h
      obtain ⟨rfl, -, hfb, -, rfl⟩ := LoopResult.mk.injEq .. ▸ h
      refine ⟨by simp, by simp, hfb.symm, by simp, ?_⟩
      intro i hi
      have hi0 : i = 0 := by simpa using hi
      subst hi0
      constructor
      · intro _
        show (monthStep env month (otp month) b).remaining_balance = 0
        exact le_antisymm hstop (monthStep_remaining_nonneg env month (otp month) b)
      · intro hlt
        simp at hlt
    · rw [if_neg hstop] at h
      rcases hr : runLoop env otp (month + 1) k
          (monthStep env month (otp month) b).remaining_balance
          (addRow env t (monthStep env month (otp month) b)) with
        ⟨rows', tot', fb', cl', cm'⟩
      rw [hr] at h
      obtain ⟨rfl, -, rfl, hcl, rfl⟩ := LoopResult.mk.injEq .. ▸ h
      subst hcl
      obtain ⟨h1, hk, hfb, hcm, hrows⟩ := ih (month + 1) _ _ rows' tot' fb' cm' hr
      refine ⟨by simp, by simp; omega, hfb, ?_, ?_⟩
      · rw [hcm]
        simp only [List.length_cons]
        exact congrArg some (by omega)
      · intro i hi
        have hi' : i < rows'.length + 1 := by simpa using hi
        cases i with
        | zero =>
          constructor
          · intro h0
            simp only [List.length_cons] at h0
            exact absurd h1 (by omega)
          · intro _
            show 0 < (monthStep env month (otp month) b).remaining_balance
            exact lt_of_not_le hstop
        | succ j =>
          have hj : j < rows'.length := by omega
          constructor
          · intro hj1
            simp only [List.length_cons] at hj1
            show (rows'.get ⟨j, hj⟩).remaining_balance = 0
            exact (hrows j hj).1 (by omega)
          · intro hj1
            simp only [List.length_cons] at hj1
            show 0 < (rows'.get ⟨j, hj⟩).remaining_balance
            exact (hrows j hj).2 (by omega)

/-- Row `i` of the loop's output simulates month `month + i`. -/
theorem runLoop_row_months (env : LoopEnv) (otp : ℕ → ℚ) :
    ∀ (k month : ℕ) (b : ℚ) (t : Totals) (rows : List MonthlyPaymentRow)
      (tot : Totals) (fb : ℚ) (cl : Bool) (cm : Option ℕ),
      runLoop env otp month k b t = ⟨rows, tot, fb, cl, cm⟩ →
      ∀ i (hi : i < rows.length), (rows.get ⟨i, hi⟩).month = month + i := by
  intro k
  induction k with
  | zero =>
    intro month b t rows tot fb cl cm h
    rw [runLoop] at h
    obtain ⟨rfl, -, -, -, -⟩ := LoopResult.mk.injEq .. ▸ h
    intro i hi
    exact absurd hi (by simp)
  | succ k ih =>
    intro month b t rows tot fb cl cm h
    simp only [runLoop] at h
    by_cases hstop : (monthStep env month (otp month) b).remaining_balance ≤ 0
    · rw [if_pos hstop] at h
      obtain ⟨rfl, -, -, -, -⟩ := LoopResult.mk.injEq .. ▸ h
      intro i hi
      have hi0 : i = 0 := by simpa using hi
      subst hi0
      show (monthStep env month (otp month) b).month = month + 0
      rw [monthStep_month]
      omega
    · rw [if_neg hstop] at h
      rcases hr : runLoop env otp (month + 1) k
          (monthStep env month (otp month) b).remaining_balance
          (addRow env t (monthStep env month (otp month) b)) with
        ⟨rows', tot', fb', cl', cm'⟩
      rw [hr] at h
      obtain ⟨rfl, -, -, -, -⟩ := LoopResult.mk.injEq .. ▸ h
      intro i hi
      cases i with
      | zero =>
        show (monthStep env month (otp month) b).month = month + 0
        rw [monthStep_month]
        omega
      | succ j =>
        have hj : j < rows'.length := by simpa using hi
        show (rows'.get ⟨j, hj⟩).month = month + (j + 1)
        rw [ih (month + 1) _ _ rows' tot' fb' cl' cm' hr j hj]
        omega

/-! ### Nonnegative rounding and the one-time dictionary -/

theorem rhe_nonneg {x : ℚ} (h : 0 ≤ x) : 0 ≤ rhe x := by
  have hf : (0 : ℤ) ≤ ⌊x⌋ := Int.floor_nonneg.mpr h
  simp only [rhe]
  split
  · exact hf
  · split
    · omega
    · split <;> omega

theorem round2_nonneg {x : ℚ} (h : 0 ≤ x) : 0 ≤ round2 x := by
  rw [round2_eq]
  have h1 : (0 : ℤ) ≤ rhe (x * 100) := rhe_nonneg (by positivity)
  have h2 : (0 : ℚ) ≤ (rhe (x * 100) : ℚ) := Int.cast_nonneg.mpr h1
  positivity

theorem one_time_by_month_isCents (l : List RawOneTime) (m : ℤ) :
    IsCents (one_time_by_month l m) := by
  suffices h : ∀ acc : ℚ, IsCents acc →
      IsCents (l.foldl (fun acc o => if o.month = m then round2 o.amount else acc) acc) from
    h 0 isCents_zero
  induction l with
  | nil => intro acc hacc; exact hacc
  | cons o l ihl =>
    intro acc hacc
    rw [List.foldl_cons]
    apply ihl
    by_cases ho : o.month = m
    · rw [if_pos ho]; exact isCents_round2 _
    · rw [if_neg ho]; exact hacc

theorem one_time_by_month_nonneg (l : List RawOneTime)
    (h : ∀ o ∈ l, 0 ≤ o.amount) (m : ℤ) : 0 ≤ one_time_by_month l m := by
  suffices hs : ∀ acc : ℚ, 0 ≤ acc →
      0 ≤ l.foldl (fun acc o => if o.month = m then round2 o.amount else acc) acc from
    hs 0 le_rfl
  induction l with
  | nil => intro acc hacc; exact hacc
  | cons o l ihl =>
    intro acc hacc
    rw [List.foldl_cons]
    apply ihl
    · intro o' ho'
      exact h o' (List.mem_cons_of_mem o ho')
    · by_cases ho : o.month = m
      · rw [if_pos ho]
        exact round2_nonneg (h o (List.mem_cons_self o l))
      · rw [if_neg ho]; exact hacc

/-- A later entry for the same month overwrites an earlier one in the
dictionary, so an overwritten entry never reaches the lookup. -/
theorem one_time_by_month_overwrite (l : List RawOneTime) (e1 e2 : RawOneTime)
    (hm : e1.month = e2.month) (m : ℤ) :
    one_time_by_month (l ++ [e1, e2]) m = one_time_by_month (l ++ [e2]) m := by
  simp only [one_time_by_month, List.foldl_append, List.foldl_cons, List.foldl_nil]
  by_cases h2 : e2.month = m
  · simp only [if_pos h2]
  · simp only [if_neg h2, if_neg (hm ▸ h2 : ¬ e1.month = m)]

/-- Appending one entry to the dictionary build. -/
theorem one_time_by_month_append (l : List RawOneTime) (e : RawOneTime) (m : ℤ) :
    one_time_by_month (l ++ [e]) m =
      if e.month = m then round2 e.amount else one_time_by_month l m := by
  simp only [one_time_by_month, List.foldl_append, List.foldl_cons, List.foldl_nil]

/-- The dictionary lookup returns the rounded amount of the last entry for
the month, `0` if there is none. -/
theorem one_time_by_month_eq_last (l : List RawOneTime) (m : ℤ) :
    one_time_by_month l m =
      ((l.reverse.find? (fun o => o.month == m)).map (fun o => round2 o.amount)).getD 0 := by
  induction l using List.reverseRecOn with
  | nil => rfl
  | append_singleton l e ih =>
    rw [one_time_by_month_append, List.reverse_append]
    by_cases he : e.month = m
    · simp [he]
    · simp [List.find?_cons, he, ih]

/-- Once some entry of the list carries the looked-up month, the fold's
starting accumulator is irrelevant: the last such entry overwrites it. -/
theorem foldl_otp_masked :
    ∀ (l : List RawOneTime) (m : ℤ), (∃ e ∈ l, e.month = m) → ∀ acc acc' : ℚ,
      l.foldl (fun acc o => if o.month = m then round2 o.amount else acc) acc =
        l.foldl (fun acc o => if o.month = m then round2 o.amount else acc) acc' := by
  intro l
  induction l with
  | nil =>
    intro m h acc acc'
    rcases h with ⟨e, he, -⟩
    exact absurd he (List.not_mem_nil e)
  | cons e l ih =>
    intro m h acc acc'
    rw [List.foldl_cons, List.foldl_cons]
    by_cases he : e.month = m
    · rw [if_pos he, if_pos he]
    · rw [if_neg he, if_neg he]
      rcases h with ⟨e2, he2, hm2⟩
      rcases List.mem_cons.mp he2 with rfl | hin
      · exact absurd hm2 he
      · exact ih m ⟨e2, hin, hm2⟩ acc acc'

/-- An entry overwritten by a later entry of the same month can be erased
from the list without changing any lookup. -/
theorem one_time_by_month_erase (l1 l2 : List RawOneTime) (e1 : RawOneTime)
    (h : ∃ e2 ∈ l2, e2.month = e1.month) (m : ℤ) :
    one_time_by_month (l1 ++ e1 :: l2) m = one_time_by_month (l1 ++ l2) m := by
  simp only [one_time_by_month, List.foldl_append, List.foldl_cons]
  by_cases he : e1.month = m
  · exact foldl_otp_masked l2 m (he ▸ h) _ _
  · rw [if_neg he]

/-! ### Exact conservation through the loop

With whole-cent inputs every rounding in the totals update is the identity,
so `balance - interest_total + regular_total + one_time_total` is invariant. -/

theorem runLoop_conserve (env : LoopEnv) (otp : ℕ → ℚ)
    (hreg : IsCents env.regular_payment)
    (hotc : ∀ m, IsCents (otp m)) (hot0 : ∀ m, 0 ≤ otp m) :
    ∀ (k month : ℕ) (b : ℚ) (t : Totals) (rows : List MonthlyPaymentRow)
      (tot : Totals) (fb : ℚ) (cl : Bool) (cm : Option ℕ),
      IsCents b → IsCents t.interest → IsCents t.regular → IsCents t.one_time →
      runLoop env otp month k b t = ⟨rows, tot, fb, cl, cm⟩ →
      fb - tot.interest + tot.regular + tot.one_time =
        b - t.interest + t.regular + t.one_time := by
  intro k
  induction k with
  | zero =>
    intro month b t rows tot fb cl cm hb hti htr hto h
    rw [runLoop] at h
    obtain ⟨-, rfl, rfl, -, -⟩ := LoopResult.mk.injEq .. ▸ h
    ring
  | succ k ih =>
    intro month b t rows tot fb cl cm hb hti htr hto h
    simp only [runLoop] at h
    obtain ⟨hrb, httl, hdpc, hopc, hrbc⟩ :=
      monthStep_exact env month (otp month) b hreg hb (hotc month) (hot0 month)
    have hric : IsCents (monthStep env month (otp month) b).interest_charged := by
      rw [monthStep_interest]; exact isCents_round2 _
    have ht'i : (addRow env t (monthStep env month (otp month) b)).interest =
        t.interest + (monthStep env month (otp month) b).interest_charged :=
      (hti.add hric).round2_self
    have ht'r : (addRow env t (monthStep env month (otp month) b)).regular =
        t.regular + (monthStep env month (otp month) b).debt_payment :=
      (htr.add hdpc).round2_self
    have ht'o : (addRow env t (monthStep env month (otp month) b)).one_time =
        t.one_time + (monthStep env month (otp month) b).one_time_payment :=
      (hto.add hopc).round2_self
    by_cases hstop : (monthStep env month (otp month) b).remaining_balance ≤ 0
    · rw [if_pos hstop] at h
      obtain ⟨-, rfl, hfb, -, -⟩ := LoopResult.mk.injEq .. ▸ h
      have hrb0 : (monthStep env month (otp month) b).remaining_balance = 0 :=
        le_antisymm hstop (monthStep_remaining_nonneg env month (otp month) b)
      rw [← hfb, ht'i, ht'r, ht'o]
      rw [hrb0] at hrb
      linarith [hrb, httl]
    · rw [if_neg hstop] at h
      rcases hr : runLoop env otp (month + 1) k
          (monthStep env month (otp month) b).remaining_balance
          (addRow env t (monthStep env month (otp month) b)) with
        ⟨rows', tot', fb', cl', cm'⟩
      rw [hr] at h
      obtain ⟨-, rfl, rfl, -, -⟩ := LoopResult.mk.injEq .. ▸ h
      have hc1 : IsCents (addRow env t (monthStep env month (otp month) b)).interest :=
        isCents_round2 _
      have hc2 : IsCents (addRow env t (monthStep env month (otp month) b)).regular :=
        isCents_round2 _
      have hc3 : IsCents (addRow env t (monthStep env month (otp month) b)).one_time :=
        isCents_round2 _
      have hrec := ih (month + 1) _ _ rows' tot' fb' cl' cm' hrbc hc1 hc2 hc3 hr
      rw [ht'i, ht'r, ht'o] at hrec
      linarith [hrec, hrb, httl]

/-! ### The claims -/

/-- Claim C1: in every simulated month whose tentative new balance
`nb = round2 (balance + interest - totalPayment)` is strictly negative, the
engine reduces the one-time payment by `min oneTime |nb|`, reduces the
regular payment by the remaining overshoot, recomputes the total payment as
the rounded sum of the adjusted components, pays exactly what was needed
(`round2 (balance + interest)`), and reports a remaining balance of
exactly `0`. -/
theorem C1_early_payoff_adjustment (env : LoopEnv) (month : ℕ) (ot b i tt nb : ℚ)
    (hreg : IsCents env.regular_payment) (hb : IsCents b)
    (hot : IsCents ot) (hot0 : 0 ≤ ot)
    (hi : round2 (b * env.monthly_rate) = i)
    (htt : round2 (env.regular_payment + ot) = tt)
    (hnb : round2 (b + i - tt) = nb)
    (hneg : nb < 0) :
    (monthStep env month ot b).one_time_payment = ot - min ot |nb| ∧
      (monthStep env month ot b).debt_payment =
        env.regular_payment - (|nb| - min ot |nb|) ∧
      (monthStep env month ot b).total_payment =
        round2 ((monthStep env month ot b).debt_payment +
          (monthStep env month ot b).one_time_payment) ∧
      (monthStep env month ot b).total_payment = round2 (b + i) ∧
      (monthStep env month ot b).remaining_balance = 0 := by
  have hic : IsCents i := hi ▸ isCents_round2 _
  have httc : IsCents tt := htt ▸ isCents_round2 _
  have htteq : tt = env.regular_payment + ot := htt ▸ (hreg.add hot).round2_self
  have hnbc : IsCents nb := hnb ▸ isCents_round2 _
  have hnbeq : nb = b + i - tt := hnb ▸ ((hb.add hic).sub httc).round2_self
  have habs : IsCents |nb| := hnbc.abs
  have habs_eq : |nb| = tt - (b + i) := by rw [abs_of_neg hneg, hnbeq]; ring
  have hbi : round2 (b + i) = b + i := (hb.add hic).round2_self
  by_cases hpos : 0 < ot
  · rw [monthStep_eq_of_neg_pos env month ot b i tt nb hi htt hnb hneg hpos]
    have hminc : IsCents (min ot |nb|) := hot.min habs
    have hminle : min ot |nb| ≤ |nb| := min_le_right _ _
    have hto : round2 (ot - min ot |nb|) = ot - min ot |nb| := (hot.sub hminc).round2_self
    refine ⟨hto, ?_, rfl, ?_, rfl⟩
    · by_cases hro : 0 < |nb| - min ot |nb|
      · rw [if_pos hro]
        exact (hreg.sub (habs.sub hminc)).round2_self
      · rw [if_neg hro]
        have : |nb| - min ot |nb| = 0 := le_antisymm (not_lt.mp hro) (by linarith)
        rw [this, sub_zero]
    · by_cases hro : 0 < |nb| - min ot |nb|
      · rw [if_pos hro]
        show round2 (round2 (env.regular_payment - (|nb| - min ot |nb|)) +
          round2 (ot - min ot |nb|)) = round2 (b + i)
        rw [hto, (hreg.sub (habs.sub hminc)).round2_self,
          ((hreg.sub (habs.sub hminc)).add (hot.sub hminc)).round2_self, hbi,
          habs_eq, htteq]
        ring
      · rw [if_neg hro]
        show round2 (env.regular_payment + round2 (ot - min ot |nb|)) = round2 (b + i)
        have hmineq : min ot |nb| = |nb| := le_antisymm hminle (by linarith [not_lt.mp hro])
        rw [hto, (hreg.add (hot.sub hminc)).round2_self, hbi, hmineq, habs_eq, htteq]
        ring
  · have hoteq : ot = 0 := le_antisymm (not_lt.mp hpos) hot0
    rw [monthStep_eq_of_neg_zero env month ot b i tt nb hi htt hnb hneg hpos]
    have hmin0 : min ot |nb| = ot := min_eq_left (hoteq ▸ abs_nonneg nb)
    refine ⟨?_, ?_, rfl, ?_, rfl⟩
    · show ot = ot - min ot |nb|
      rw [hmin0, hoteq, sub_zero]
    · show round2 (round2 (b + i)) = env.regular_payment - (|nb| - min ot |nb|)
      rw [hbi, hbi, hmin0, habs_eq, htteq, hoteq]
      ring
    · show round2 (round2 (round2 (b + i)) + ot) = round2 (b + i)
      rw [hoteq, add_zero, hbi, hbi]
      exact hbi

/-- Claim C2: the loop stops exactly when the balance reaches `0`: if it
cleared at month `k`, exactly `k` rows exist (months `1..k`), every row
before `k` keeps a positive balance, row `k`'s balance is exactly `0`, and
`months_to_payoff = k ≤ months`; otherwise all `months` rows exist with
positive balances, `months_to_payoff` is unset and a recommended payment is
populated. -/
theorem C2_termination (p : Params) :
    ((calculate_debt_payoff_plan p).is_debt_cleared = true ∧
      ∃ k, 1 ≤ k ∧ k ≤ p.months ∧
        (calculate_debt_payoff_plan p).months_to_payoff = some k ∧
        (calculate_debt_payoff_plan p).monthly_rows.length = k ∧
        ∀ i (hi : i < (calculate_debt_payoff_plan p).monthly_rows.length),
          ((calculate_debt_payoff_plan p).monthly_rows.get ⟨i, hi⟩).month = i + 1 ∧
          (i + 1 = k →
            ((calculate_debt_payoff_plan p).monthly_rows.get ⟨i, hi⟩).remaining_balance = 0) ∧
          (i + 1 < k →
            0 < ((calculate_debt_payoff_plan p).monthly_rows.get ⟨i, hi⟩).remaining_balance)) ∨
    ((calculate_debt_payoff_plan p).is_debt_cleared = false ∧
      (calculate_debt_payoff_plan p).monthly_rows.length = p.months ∧
      (calculate_debt_payoff_plan p).months_to_payoff = none ∧
      (calculate_debt_payoff_plan p).recommended_payment ≠ none ∧
      ∀ row ∈ (calculate_debt_payoff_plan p).monthly_rows, 0 < row.remaining_balance) := by
  rcases hr : plan_loop p with ⟨rows, tot, fb, cl, cm⟩
  have hrows : (calculate_debt_payoff_plan p).monthly_rows = rows := by
    simp [calculate_debt_payoff_plan, hr]
  have hcl : (calculate_debt_payoff_plan p).is_debt_cleared = cl := by
    simp [calculate_debt_payoff_plan, hr]
  have hcm : (calculate_debt_payoff_plan p).months_to_payoff = cm := by
    simp [calculate_debt_payoff_plan, hr]
  have hr' : runLoop (plan_env p) (fun m => one_time_by_month p.one_time_payments (m : ℤ))
      1 p.months (round2 p.debt_amount) ⟨0, 0, 0, 0⟩ = ⟨rows, tot, fb, cl, cm⟩ := hr
  cases cl with
  | false =>
    right
    obtain ⟨hlen, hcmn, hpos⟩ := runLoop_not_cleared_struct (plan_env p) _ p.months 1
      (round2 p.debt_amount) ⟨0, 0, 0, 0⟩ rows tot fb cm hr'
    refine ⟨hcl, by rw [hrows, hlen], by rw [hcm, hcmn], ?_, ?_⟩
    · have : (calculate_debt_payoff_plan p).recommended_payment =
          some (calc_required_payment (round2 p.debt_amount) ((plan_env p).monthly_rate)
            p.months (((p.one_time_payments.map parseOneTime).map OneTimePayment.amount).sum)) := by
        simp [calculate_debt_payoff_plan, hr]
      rw [this]
      simp
    · intro row hrow
      exact hpos row (hrows ▸ hrow)
  | true =>
    left
    obtain ⟨h1, hk, hfb, hcms, hidx⟩ := runLoop_cleared_struct (plan_env p) _ p.months 1
      (round2 p.debt_amount) ⟨0, 0, 0, 0⟩ rows tot fb cm hr'
    have hmonths := runLoop_row_months (plan_env p) _ p.months 1
      (round2 p.debt_amount) ⟨0, 0, 0, 0⟩ rows tot fb true cm hr'
    refine ⟨hcl, rows.length, h1, hk, ?_, by rw [hrows], ?_⟩
    · rw [hcm, hcms]
      exact congrArg some (by omega)
    · rw [hrows]
      intro i hi
      refine ⟨?_, (hidx i hi).1, (hidx i hi).2⟩
      rw [hmonths i hi]
      omega

/-- Claim C4: every monthly row of every plan has a remaining balance that
is nonnegative exactly, not merely above `-0.01`: any negative tentative
balance is clamped to exactly `0`. -/
theorem C4_balance_nonneg (p : Params) (row : MonthlyPaymentRow)
    (hrow : row ∈ (calculate_debt_payoff_plan p).monthly_rows) :
    0 ≤ row.remaining_balance := by
  rcases hr : plan_loop p with ⟨rows, tot, fb, cl, cm⟩
  have hrows : (calculate_debt_payoff_plan p).monthly_rows = rows := by
    simp [calculate_debt_payoff_plan, hr]
  exact runLoop_rows_nonneg (plan_env p) _ p.months 1 (round2 p.debt_amount) ⟨0, 0, 0, 0⟩
    rows tot fb cl cm hr row (hrows ▸ hrow)

/-- Claim C5: the plan's aggregates satisfy the conservation identity
`initial_debt + total_interest = total_regular + total_one_time + final_balance`
within `0.02` (in this exact-cents model the identity is in fact exact). -/
theorem C5_conservation (p : Params)
    (hamounts : ∀ o ∈ p.one_time_payments, 0 ≤ o.amount) :
    |(calculate_debt_payoff_plan p).initial_debt +
        (calculate_debt_payoff_plan p).total_interest_paid -
        ((calculate_debt_payoff_plan p).total_regular_payments +
          (calculate_debt_payoff_plan p).total_one_time_payments +
          (calculate_debt_payoff_plan p).final_balance)| ≤ 2/100 := by
  rcases hr : plan_loop p with ⟨rows, tot, fb, cl, cm⟩
  have hdebt : (calculate_debt_payoff_plan p).initial_debt = round2 p.debt_amount := rfl
  have hint : (calculate_debt_payoff_plan p).total_interest_paid = tot.interest := by
    simp [calculate_debt_payoff_plan, hr]
  have hregp : (calculate_debt_payoff_plan p).total_regular_payments = tot.regular := by
    simp [calculate_debt_payoff_plan, hr]
  have hotp : (calculate_debt_payoff_plan p).total_one_time_payments = tot.one_time := by
    simp [calculate_debt_payoff_plan, hr]
  have hfbp : (calculate_debt_payoff_plan p).final_balance = fb := by
    simp [calculate_debt_payoff_plan, hr]
  have hregc : IsCents (plan_env p).regular_payment := by
    simp only [plan_env]
    exact isCents_round2 _
  have hcon := runLoop_conserve (plan_env p)
    (fun m => one_time_by_month p.one_time_payments (m : ℤ)) hregc
    (fun m => one_time_by_month_isCents p.one_time_payments (m : ℤ))
    (fun m => one_time_by_month_nonneg p.one_time_payments hamounts (m : ℤ))
    p.months 1 (round2 p.debt_amount) ⟨0, 0, 0, 0⟩ rows tot fb cl cm
    (isCents_round2 _) isCents_zero isCents_zero isCents_zero hr
  rw [hdebt, hint, hregp, hotp, hfbp]
  have hzero : round2 p.debt_amount + tot.interest -
      (tot.regular + tot.one_time + fb) = 0 := by
    have h0 : (⟨0, 0, 0, 0⟩ : Totals).interest = 0 := rfl
    have h1 : (⟨0, 0, 0, 0⟩ : Totals).regular = 0 := rfl
    have h2 : (⟨0, 0, 0, 0⟩ : Totals).one_time = 0 := rfl
    rw [h0, h1, h2] at hcon
    linarith
  rw [hzero]
  norm_num

/-- Claim C6: the required-payment solver returns
`round2 (max 0 (debt - bonus) / months)` at zero interest and the standard
amortization formula `round2 (rate * max 0 (debt - bonus) / (1 - (1+rate)^-months))`
at positive interest. -/
theorem C6_required_payment (debt rate bonus : ℚ) (months : ℕ)
    (hd : 0 < debt) (hm : 0 < months) (hb : 0 ≤ bonus) :
    (rate = 0 → calc_required_payment debt rate months bonus =
      round2 (max 0 (debt - bonus) / (months : ℚ))) ∧
    (0 < rate → calc_required_payment debt rate months bonus =
      round2 (rate * max 0 (debt - bonus) / (1 - (1 + rate) ^ (-(months : ℤ))))) := by
  constructor
  · intro h0
    rw [calc_required_payment, if_pos h0]
    have hm' : (0 : ℚ) ≤ (months : ℚ) := by positivity
    rw [← zero_div (months : ℚ), max_div_div_right hm', zero_div]
  · intro hpos
    rw [calc_required_payment, if_neg (ne_of_gt hpos)]

/-- The validator's early return: no distributable cash means the single
message, regardless of anything else in the plan. -/
theorem validate_plan_no_cash (plan : FinanceDebtPlan)
    (h : round2 (plan.salary - plan.fixed_expenses -
      round2 (plan.salary * plan.savings_rate)) ≤ 0) :
    validate_plan plan = ["No cash for debt: expenses+savings >= salary"] := by
  simp only [validate_plan]
  rw [if_pos h]

/-- Claim C7: whenever
`round2 (salary - fixed_expenses - round2 (salary * savings_rate)) ≤ 0`,
the validator returns exactly the one-element no-cash message list — in
particular no bonus-range or per-row check contributes anything. -/
theorem C7_no_cash_early_return (plan : FinanceDebtPlan)
    (h : round2 (plan.salary - plan.fixed_expenses -
      round2 (plan.salary * plan.savings_rate)) ≤ 0) :
    validate_plan plan = ["No cash for debt: expenses+savings >= salary"] :=
  validate_plan_no_cash plan h

/-- Claim C9: a plan whose validation fails is returned as a structured
failure carrying the violations and the candidate plan, and the store is
never invoked for it. -/
theorem C9_invalid_never_stored (raw : RawMapping) (p : Params)
    (hx : extract_parameters raw = some p)
    (hv : validate_plan (calculate_debt_payoff_plan p) ≠ []) :
    finance_debt_payoff_executor raw =
      (ExecOutcome.validation_failed (validate_plan (calculate_debt_payoff_plan p))
        (calculate_debt_payoff_plan p), false) := by
  simp only [finance_debt_payoff_executor, hx]
  rw [if_pos hv]

/-- Claim C8, counterexample: with only `salary` supplied, extraction fails,
but the reported `required` list is the full static key list — it still
names the supplied key `salary` (and names `interest_rate` instead of the
checked key `interest_rate_percent`), so the error does not name exactly
the missing keys. -/
theorem C8_counterexample :
    extract_parameters rawOnlySalary = none ∧
      rawOnlySalary.salary = some 1000 ∧
      "salary" ∈ required_keys_reported ∧
      spec_missing_required_keys (applyDefaults rawOnlySalary) =
        ["fixed_expenses", "debt_amount", "interest_rate_percent", "months"] ∧
      required_keys_reported ≠ spec_missing_required_keys (applyDefaults rawOnlySalary) ∧
      finance_debt_payoff_executor rawOnlySalary =
        (ExecOutcome.extraction_failed required_keys_reported, false) := by
  refine ⟨rfl, rfl, ?_, rfl, ?_, rfl⟩
  · simp [required_keys_reported]
  · simp [required_keys_reported, spec_missing_required_keys, applyDefaults, rawOnlySalary]

/-- Claim C8, amended: extraction fails exactly when a required key is
missing after defaulting, and the failure payload then names the fixed
static list `[salary, fixed_expenses, debt_amount, interest_rate, months]`,
regardless of which keys are actually missing. -/
theorem C8_amended_missing_keys (raw : RawMapping) :
    (extract_parameters raw = none ↔
      spec_missing_required_keys (applyDefaults raw) ≠ []) ∧
    (extract_parameters raw = none →
      finance_debt_payoff_executor raw =
        (ExecOutcome.extraction_failed required_keys_reported, false)) := by
  obtain ⟨s, f, d, ir, m, sr, c, otps⟩ := raw
  constructor
  · cases s <;> cases f <;> cases d <;> cases ir <;> cases m <;>
      simp [extract_parameters, applyDefaults, spec_missing_required_keys]
  · intro hnone
    simp only [finance_debt_payoff_executor, hnone]

/-- Claim C10: an earlier one-time payment overwritten by a later entry for
the same month contributes nothing to the simulation: the dictionary lookup
keeps only the last entry per month, and erasing the overwritten entry
changes no monthly row, no one-time total and no cleared flag — while the
echoed `one_time_payments` list keeps every entry and the recommended
payment's bonus sums all entries, the overwritten one included. -/
theorem C10_duplicate_month_last_wins (p : Params) (l1 l2 : List RawOneTime)
    (e1 : RawOneTime) (hmask : ∃ e2 ∈ l2, e2.month = e1.month) :
    (∀ m : ℤ, one_time_by_month (l1 ++ e1 :: l2) m =
      (((l1 ++ e1 :: l2).reverse.find? (fun o => o.month == m)).map
        (fun o => round2 o.amount)).getD 0) ∧
    ((calculate_debt_payoff_plan { p with one_time_payments := l1 ++ e1 :: l2 }).monthly_rows =
      (calculate_debt_payoff_plan { p with one_time_payments := l1 ++ l2 }).monthly_rows) ∧
    ((calculate_debt_payoff_plan
        { p with one_time_payments := l1 ++ e1 :: l2 }).total_one_time_payments =
      (calculate_debt_payoff_plan
        { p with one_time_payments := l1 ++ l2 }).total_one_time_payments) ∧
    ((calculate_debt_payoff_plan { p with one_time_payments := l1 ++ e1 :: l2 }).is_debt_cleared =
      (calculate_debt_payoff_plan { p with one_time_payments := l1 ++ l2 }).is_debt_cleared) ∧
    ((calculate_debt_payoff_plan { p with one_time_payments := l1 ++ e1 :: l2 }).one_time_payments =
      (l1 ++ e1 :: l2).map parseOneTime) ∧
    ((calculate_debt_payoff_plan { p with one_time_payments := l1 ++ e1 :: l2 }).is_debt_cleared =
        false →
      (calculate_debt_payoff_plan
          { p with one_time_payments := l1 ++ e1 :: l2 }).recommended_payment =
        some (calc_required_payment (round2 p.debt_amount) ((plan_env p).monthly_rate) p.months
          (((l1 ++ e1 :: l2).map (fun o => round2 o.amount)).sum))) := by
  have hotp : (fun m : ℕ => one_time_by_month (l1 ++ e1 :: l2) (m : ℤ)) =
      (fun m : ℕ => one_time_by_month (l1 ++ l2) (m : ℤ)) :=
    funext fun m => one_time_by_month_erase l1 l2 e1 hmask (m : ℤ)
  have hloop : plan_loop { p with one_time_payments := l1 ++ e1 :: l2 } =
      plan_loop { p with one_time_payments := l1 ++ l2 } := by
    show runLoop (plan_env { p with one_time_payments := l1 ++ e1 :: l2 })
        (fun m : ℕ => one_time_by_month (l1 ++ e1 :: l2) (m : ℤ)) 1 p.months
        (round2 p.debt_amount) ⟨0, 0, 0, 0⟩ =
      runLoop (plan_env { p with one_time_payments := l1 ++ l2 })
        (fun m : ℕ => one_time_by_month (l1 ++ l2) (m : ℤ)) 1 p.months
        (round2 p.debt_amount) ⟨0, 0, 0, 0⟩
    have henv : plan_env { p with one_time_payments := l1 ++ e1 :: l2 } =
        plan_env { p with one_time_payments := l1 ++ l2 } := rfl
    rw [hotp, henv]
  refine ⟨fun m => one_time_by_month_eq_last (l1 ++ e1 :: l2) m, ?_, ?_, ?_, rfl, ?_⟩
  · show (plan_loop { p with one_time_payments := l1 ++ e1 :: l2 }).rows =
      (plan_loop { p with one_time_payments := l1 ++ l2 }).rows
    rw [hloop]
  · show (plan_loop { p with one_time_payments := l1 ++ e1 :: l2 }).totals.one_time =
      (plan_loop { p with one_time_payments := l1 ++ l2 }).totals.one_time
    rw [hloop]
  · show (plan_loop { p with one_time_payments := l1 ++ e1 :: l2 }).cleared =
      (plan_loop { p with one_time_payments := l1 ++ l2 }).cleared
    rw [hloop]
  · intro hcl
    have hcl' : (plan_loop { p with one_time_payments := l1 ++ e1 :: l2 }).cleared = false := hcl
    have hmap : ((l1 ++ e1 :: l2).map parseOneTime).map OneTimePayment.amount =
        (l1 ++ e1 :: l2).map (fun o => round2 o.amount) := by
      rw [List.map_map]
      rfl
    show (if (plan_loop { p with one_time_payments := l1 ++ e1 :: l2 }).cleared then none
        else some (calc_required_payment (round2 p.debt_amount)
          ((plan_env { p with one_time_payments := l1 ++ e1 :: l2 }).monthly_rate) p.months
          ((((l1 ++ e1 :: l2).map parseOneTime).map OneTimePayment.amount).sum))) =
      some (calc_required_payment (round2 p.debt_amount) ((plan_env p).monthly_rate) p.months
        (((l1 ++ e1 :: l2).map (fun o => round2 o.amount)).sum))
    have henvr : (plan_env { p with one_time_payments := l1 ++ e1 :: l2 }).monthly_rate =
        (plan_env p).monthly_rate := rfl
    rw [hcl', hmap, henvr]
    simp

/-! ### Concrete evaluation helpers -/

theorem mem_of_head?_eq_some {α : Type} {l : List α} {a : α} (h : l.head? = some a) :
    a ∈ l := by
  cases l with
  | nil => simp at h
  | cons x xs =>
    simp only [List.head?_cons, Option.some.injEq] at h
    exact h ▸ List.mem_cons_self x xs

/-- The first row of a loop that has at least one month to run. -/
theorem runLoop_succ_rows_head (env : LoopEnv) (otp : ℕ → ℚ) (month k : ℕ)
    (b : ℚ) (t : Totals) :
    (runLoop env otp month (k + 1) b t).rows.head? =
      some (monthStep env month (otp month) b) := by
  simp only [runLoop]
  split <;> rfl

/-- Two-sided evaluation of `round2` at a value that is whole cents. -/
theorem round2_eval (x v : ℚ) (n : ℤ) (h1 : x * 100 = (n : ℚ))
    (h2 : (n : ℚ) = v * 100) : round2 x = v := by
  rw [round2_eq_of_int x n h1, h2]
  exact mul_div_cancel_right₀ v (by norm_num)

/-- Two-sided evaluation of `pyround` at a value whole at scale `10^k`. -/
theorem pyround_eval (x v : ℚ) (k : ℕ) (n : ℤ) (h1 : x * (10 : ℚ) ^ k = (n : ℚ))
    (h2 : (n : ℚ) = v * (10 : ℚ) ^ k) : pyround x k = v := by
  rw [pyround_eq_of_int x k n h1, h2]
  exact mul_div_cancel_right₀ v (by positivity)

/-! ### Scenario A evaluated -/

theorem paramsA_env_monthly_rate : (plan_env paramsA).monthly_rate = 1/40 := by
  show pyround ((5 : ℚ)/2 / 100) 6 = 1/40
  exact pyround_eval _ _ 6 25000 (by norm_num) (by norm_num)

theorem paramsA_env_salary : (plan_env paramsA).salary = 12000 := by
  show round2 (12000 : ℚ) = 12000
  exact round2_eval _ _ 1200000 (by norm_num) (by norm_num)

theorem paramsA_env_fixed : (plan_env paramsA).fixed_expenses = 7500 := by
  show round2 (7500 : ℚ) = 7500
  exact round2_eval _ _ 750000 (by norm_num) (by norm_num)

theorem paramsA_env_savings : (plan_env paramsA).savings_amount = 1200 := by
  show round2 (round2 (12000 : ℚ) * pyround ((10 : ℚ)/100) 4) = 1200
  rw [round2_eval (12000 : ℚ) 12000 1200000 (by norm_num) (by norm_num),
    pyround_eval ((10 : ℚ)/100) (1/10) 4 1000 (by norm_num) (by norm_num)]
  exact round2_eval _ _ 120000 (by norm_num) (by norm_num)

theorem paramsA_env_regular : (plan_env paramsA).regular_payment = 3300 := by
  show round2 (round2 (12000 : ℚ) - round2 (7500 : ℚ) -
    round2 (round2 (12000 : ℚ) * pyround ((10 : ℚ)/100) 4)) = 3300
  rw [round2_eval (12000 : ℚ) 12000 1200000 (by norm_num) (by norm_num),
    round2_eval (7500 : ℚ) 7500 750000 (by norm_num) (by norm_num),
    pyround_eval ((10 : ℚ)/100) (1/10) 4 1000 (by norm_num) (by norm_num),
    round2_eval ((12000 : ℚ) * (1/10)) 1200 120000 (by norm_num) (by norm_num)]
  exact round2_eval _ _ 330000 (by norm_num) (by norm_num)

/-- Scenario A's first simulated month, evaluated. -/
theorem scenarioA_first_row :
    (calculate_debt_payoff_plan paramsA).monthly_rows.head? = some rowA1 := by
  have hb : round2 paramsA.debt_amount = 20000 := by
    show round2 (20000 : ℚ) = 20000
    exact round2_eval _ _ 2000000 (by norm_num) (by norm_num)
  have hi : round2 ((20000 : ℚ) * (plan_env paramsA).monthly_rate) = 500 := by
    rw [paramsA_env_monthly_rate]
    exact round2_eval _ _ 50000 (by norm_num) (by norm_num)
  have htt : round2 ((plan_env paramsA).regular_payment + 0) = 3300 := by
    rw [paramsA_env_regular]
    exact round2_eval _ _ 330000 (by norm_num) (by norm_num)
  have hnb : round2 ((20000 : ℚ) + 500 - 3300) = 17200 :=
    round2_eval _ _ 1720000 (by norm_num) (by norm_num)
  show (runLoop (plan_env paramsA)
      (fun m => one_time_by_month paramsA.one_time_payments (m : ℤ)) 1 (5 + 1)
      (round2 paramsA.debt_amount) ⟨0, 0, 0, 0⟩).rows.head? = some rowA1
  rw [hb, runLoop_succ_rows_head]
  show some (monthStep (plan_env paramsA) 1
      (one_time_by_month paramsA.one_time_payments ((1 : ℕ) : ℤ)) 20000) = some rowA1
  have hot : one_time_by_month paramsA.one_time_payments ((1 : ℕ) : ℤ) = 0 := rfl
  rw [hot,
    monthStep_eq_of_nonneg (plan_env paramsA) 1 0 20000 500 3300 17200 hi htt hnb
      (by norm_num),
    paramsA_env_salary, paramsA_env_fixed, paramsA_env_savings, paramsA_env_regular]
  rfl

/-- Claim C3: on Scenario A (salary 12000, expenses 7500, debt 20000, rate
2.5 percent, 6 months, savings 10 percent, no bonuses), the first monthly
row charges interest 500.00, saves 1200.00, pays a regular 3300.00 with
total 3300.00, and leaves a balance of 17200.00. -/
theorem C3_scenario_A_first_month :
    (calculate_debt_payoff_plan paramsA).monthly_rows.head? = some rowA1 ∧
      rowA1.interest_charged = 500 ∧ rowA1.savings_amount = 1200 ∧
      rowA1.debt_payment = 3300 ∧ rowA1.total_payment = 3300 ∧
      rowA1.remaining_balance = 17200 :=
  ⟨scenarioA_first_row, rfl, rfl, rfl, rfl, rfl⟩

/-! ### Witnesses -/

/-- Witness for C1 at a concrete clamped month: balance 100, interest 2.50,
regular payment 3300, no one-time payment; the tentative balance is
-3197.50 and the adjusted payment is exactly the 102.50 needed. -/
theorem C1_witness :
    (monthStep envClamp 1 0 100).one_time_payment = 0 - min 0 |(-(6395/2) : ℚ)| ∧
      (monthStep envClamp 1 0 100).debt_payment =
        envClamp.regular_payment - (|(-(6395/2) : ℚ)| - min 0 |(-(6395/2) : ℚ)|) ∧
      (monthStep envClamp 1 0 100).total_payment =
        round2 ((monthStep envClamp 1 0 100).debt_payment +
          (monthStep envClamp 1 0 100).one_time_payment) ∧
      (monthStep envClamp 1 0 100).total_payment = round2 ((100 : ℚ) + 5/2) ∧
      (monthStep envClamp 1 0 100).remaining_balance = 0 :=
  C1_early_payoff_adjustment envClamp 1 0 100 (5/2) 3300 (-(6395/2))
    ⟨330000, by norm_num [envClamp]⟩ ⟨10000, by norm_num⟩ isCents_zero le_rfl
    (by show round2 ((100 : ℚ) * (1/40)) = 5/2
        exact round2_eval _ _ 250 (by norm_num) (by norm_num))
    (by show round2 ((3300 : ℚ) + 0) = 3300
        exact round2_eval _ _ 330000 (by norm_num) (by norm_num))
    (round2_eval _ _ (-319750) (by norm_num) (by norm_num))
    (by norm_num)

/-- Witness for C4: Scenario A's first row has a nonnegative balance. -/
theorem C4_witness : 0 ≤ rowA1.remaining_balance :=
  C4_balance_nonneg paramsA rowA1 (mem_of_head?_eq_some scenarioA_first_row)

/-- Witness for C5: conservation on Scenario A. -/
theorem C5_witness :
    |(calculate_debt_payoff_plan paramsA).initial_debt +
        (calculate_debt_payoff_plan paramsA).total_interest_paid -
        ((calculate_debt_payoff_plan paramsA).total_regular_payments +
          (calculate_debt_payoff_plan paramsA).total_one_time_payments +
          (calculate_debt_payoff_plan paramsA).final_balance)| ≤ 2/100 :=
  C5_conservation paramsA (by simp [paramsA])

/-- Witness for C6: debt 500 over 5 months at zero rate and zero bonus. -/
theorem C6_witness :
    calc_required_payment 500 0 5 0 = round2 (max 0 ((500 : ℚ) - 0) / ((5 : ℕ) : ℚ)) :=
  (C6_required_payment 500 0 0 5 (by norm_num) (by norm_num) le_rfl).1 rfl

/-- The no-cash plan's available cash is negative (-1100). -/
theorem paramsNoCash_available :
    round2 ((calculate_debt_payoff_plan paramsNoCash).salary -
      (calculate_debt_payoff_plan paramsNoCash).fixed_expenses -
      round2 ((calculate_debt_payoff_plan paramsNoCash).salary *
        (calculate_debt_payoff_plan paramsNoCash).savings_rate)) ≤ 0 := by
  have e1 : (calculate_debt_payoff_plan paramsNoCash).salary = 1000 := by
    show round2 (1000 : ℚ) = 1000
    exact round2_eval _ _ 100000 (by norm_num) (by norm_num)
  have e2 : (calculate_debt_payoff_plan paramsNoCash).fixed_expenses = 2000 := by
    show round2 (2000 : ℚ) = 2000
    exact round2_eval _ _ 200000 (by norm_num) (by norm_num)
  have e3 : (calculate_debt_payoff_plan paramsNoCash).savings_rate = 1/10 := by
    show pyround ((10 : ℚ)/100) 4 = 1/10
    exact pyround_eval _ _ 4 1000 (by norm_num) (by norm_num)
  rw [e1, e2, e3,
    round2_eval ((1000 : ℚ) * (1/10)) 100 10000 (by norm_num) (by norm_num),
    round2_eval ((1000 : ℚ) - 2000 - 100) (-1100) (-110000) (by norm_num) (by norm_num)]
  norm_num

/-- The no-cash plan's validation result. -/
theorem paramsNoCash_validation :
    validate_plan (calculate_debt_payoff_plan paramsNoCash) =
      ["No cash for debt: expenses+savings >= salary"] :=
  validate_plan_no_cash _ paramsNoCash_available

/-- Witness for C7: the validator's early return on the no-cash plan. -/
theorem C7_witness :
    validate_plan (calculate_debt_payoff_plan paramsNoCash) =
      ["No cash for debt: expenses+savings >= salary"] :=
  C7_no_cash_early_return (calculate_debt_payoff_plan paramsNoCash) paramsNoCash_available

/-- Witness for C9: the no-cash request is answered with a structured
validation failure and nothing is stored. -/
theorem C9_witness :
    finance_debt_payoff_executor rawNoCash =
      (ExecOutcome.validation_failed
        (validate_plan (calculate_debt_payoff_plan paramsNoCash))
        (calculate_debt_payoff_plan paramsNoCash), false) :=
  C9_invalid_never_stored rawNoCash paramsNoCash rfl
    (by rw [paramsNoCash_validation]; simp)

/-- Witness for C10 at two one-time payments both in month 2, the first of
which is overwritten. -/
theorem C10_witness :
    (∀ m : ℤ, one_time_by_month (([] : List RawOneTime) ++
        (⟨2, 100, none⟩ : RawOneTime) :: [⟨2, 50, none⟩]) m =
      (((([] : List RawOneTime) ++ (⟨2, 100, none⟩ : RawOneTime) ::
          [⟨2, 50, none⟩]).reverse.find? (fun o => o.month == m)).map
        (fun o => round2 o.amount)).getD 0) ∧
    ((calculate_debt_payoff_plan { paramsNoCash with
        one_time_payments := [] ++ (⟨2, 100, none⟩ : RawOneTime) :: [⟨2, 50, none⟩] }).monthly_rows =
      (calculate_debt_payoff_plan { paramsNoCash with
        one_time_payments := [] ++ [⟨2, 50, none⟩] }).monthly_rows) ∧
    ((calculate_debt_payoff_plan { paramsNoCash with
        one_time_payments :=
          [] ++ (⟨2, 100, none⟩ : RawOneTime) :: [⟨2, 50, none⟩] }).total_one_time_payments =
      (calculate_debt_payoff_plan { paramsNoCash with
        one_time_payments := [] ++ [⟨2, 50, none⟩] }).total_one_time_payments) ∧
    ((calculate_debt_payoff_plan { paramsNoCash with
        one_time_payments :=
          [] ++ (⟨2, 100, none⟩ : RawOneTime) :: [⟨2, 50, none⟩] }).is_debt_cleared =
      (calculate_debt_payoff_plan { paramsNoCash with
        one_time_payments := [] ++ [⟨2, 50, none⟩] }).is_debt_cleared) ∧
    ((calculate_debt_payoff_plan { paramsNoCash with
        one_time_payments :=
          [] ++ (⟨2, 100, none⟩ : RawOneTime) :: [⟨2, 50, none⟩] }).one_time_payments =
      (([] : List RawOneTime) ++ (⟨2, 100, none⟩ : RawOneTime) ::
        [⟨2, 50, none⟩]).map parseOneTime) ∧
    ((calculate_debt_payoff_plan { paramsNoCash with
        one_time_payments :=
          [] ++ (⟨2, 100, none⟩ : RawOneTime) :: [⟨2, 50, none⟩] }).is_debt_cleared = false →
      (calculate_debt_payoff_plan { paramsNoCash with
        one_time_payments :=
          [] ++ (⟨2, 100, none⟩ : RawOneTime) :: [⟨2, 50, none⟩] }).recommended_payment =
        some (calc_required_payment (round2 paramsNoCash.debt_amount)
          ((plan_env paramsNoCash).monthly_rate) paramsNoCash.months
          (((([] : List RawOneTime) ++ (⟨2, 100, none⟩ : RawOneTime) ::
            [⟨2, 50, none⟩]).map (fun o => round2 o.amount)).sum))) :=
  C10_duplicate_month_last_wins paramsNoCash [] [⟨2, 50, none⟩] ⟨2, 100, none⟩
    ⟨⟨2, 50, none⟩, by simp⟩

end DebtPayoff
